import Mathlib

/-!
Verification of the statistics-collection module `my_stats.py`.

The module computes summary statistics over a population of simulated
entities ("Cells") living on a grid ("Surface"), and reshapes sequences of
such statistics records into scatter-plot series.

Embedding conventions:
* Python numbers (ints and floats flowing through the statistics) are
  modelled as exact rationals `ℚ`.
* A Python dict is modelled as an insertion-ordered association list with
  Python assignment semantics (`dinsert`) and lookup (`dlookup`).
* Fallible operations (sequence indexing, division by a zero map size)
  return `Option`; `output_plot` returns `Except String` so that a raised
  `KeyError` is distinguished from a produced artifact.
* `statistics.pstdev` takes the square root of the population variance; the
  square root function is a parameter `sq` of the embedding, since it is an
  external-library primitive whose value no verified statement depends on.
* Surface, Cell and Gene are external collaborators of the module; they are
  modelled from the specification's interface description (width, height,
  population, ordered traversal, gene choice sequence, score, age, five
  behavioural classifier flags).
-/

namespace MyStats

/-- A gene symbol: cooperate or defect (`'c'` / `'d'` in the source). -/
inductive Choice : Type
  | C : Choice
  | D : Choice
deriving DecidableEq, Repr

/-- Modelled from the spec: a Gene is an ordered sequence of discrete
choices over `{cooperate, defect}`. -/
structure Gene : Type where
  seq : List Choice
deriving DecidableEq, Repr

/-- Modelled from the spec: `Gene.get_choice_at(i)` exposes the choice at a
given step index; an out-of-range index produces no value (an `IndexError`
in Python), hence the `Option` result. -/
def Gene.get_choice_at (g : Gene) (i : Nat) : Option Choice :=
  g.seq.get? i

/-- Modelled from the spec: `Gene.get_defect_fraction()` is the fraction of
defecting choices across the whole sequence. -/
def Gene.get_defect_fraction (g : Gene) : ℚ :=
  ((g.seq.countP (fun ch => ch = Choice.D) : ℚ)) / ((g.seq.length : ℚ))

/-- Modelled from the spec: a Cell exposes a behavioural Gene, a fitness
score, an age, and five boolean behavioural classifiers. -/
structure Cell : Type where
  gene : Gene
  score : ℚ
  age : ℚ
  is_tft : Bool
  is_t2t : Bool
  is_ftf : Bool
  is_alld : Bool
  is_allc : Bool
deriving DecidableEq, Repr

/-- Modelled from the spec: a Surface exposes `width`, `height`, and its
live entities; `my_map` applies a function to every live entity in order and
`get_all` enumerates them, both traversing the same `cells` list. -/
structure Surface : Type where
  width : Nat
  height : Nat
  cells : List Cell
deriving DecidableEq, Repr

/-- Modelled from the spec: `surface.population` is the count of live
entities, i.e. the number of entities the traversal primitives visit. -/
def Surface.population (s : Surface) : Nat :=
  s.cells.length

/-- A value stored in a stats record: a Python float, a Python int, or the
null marker `None`. -/
inductive StatVal : Type
  | float : ℚ → StatVal
  | int : Nat → StatVal
  | null : StatVal
deriving DecidableEq, Repr

/-- A Python dict from statistic name to value, as an insertion-ordered
association list. -/
abbrev Dict : Type := List (String × StatVal)

/-- Python dict assignment `d[k] = v`: overwrite in place if the key is
present, otherwise append at the end. -/
def dinsert (d : Dict) (k : String) (v : StatVal) : Dict :=
  if d.any (fun p => p.1 = k) then
    d.map (fun p => if p.1 = k then (k, v) else p)
  else
    d ++ [(k, v)]

/-- Python dict lookup `d[k]`, `none` when the key is absent. -/
def dlookup (d : Dict) (k : String) : Option StatVal :=
  (d.find? (fun p => p.1 = k)).map (fun p => p.2)

/-- `statistics.mean`: the exact arithmetic mean. -/
def mean (xs : List ℚ) : ℚ :=
  xs.sum / (xs.length : ℚ)

/-- `statistics.pstdev(xs, mu)`: the square root of the population variance
about the supplied mean `mu` (divisor `N`).  The square root `sq` is the
external library primitive, passed as a parameter. -/
def pstdev (sq : ℚ → ℚ) (xs : List ℚ) (mu : ℚ) : ℚ :=
  sq (((xs.map (fun x => (x - mu) ^ 2)).sum) / (xs.length : ℚ))

/-- `init_move_stats(surface, stats)`: records under `'init_move_frac'` the
percentage of entities whose gene choice at index 1 is the defect symbol,
or `None` when the population is empty.  The traversal reads each gene at
index 1 with no length guard, so it fails (`none`) as soon as some gene has
no choice there.  The returned surface is the surface state after the call. -/
def init_move_stats (s : Surface) (stats : Dict) : Option (Surface × Dict) :=
  if s.population ≠ 0 then
    (s.cells.mapM (fun (c : Cell) => c.gene.get_choice_at 1)).map (fun initial_moves =>
      let init_move_frac : ℚ :=
        ((initial_moves.countP (fun mv => mv = Choice.D) : ℚ)) /
          ((initial_moves.length : ℚ))
      (s, dinsert stats "init_move_frac" (StatVal.float (init_move_frac * 100))))
  else
    some (s, dinsert stats "init_move_frac" StatVal.null)

/-- `fraction_def_stats(surface, stats)`: mean and population standard
deviation of the per-entity defect fraction, scaled to percent; both default
to `0` on an empty population. -/
def fraction_def_stats (sq : ℚ → ℚ) (s : Surface) (stats : Dict) :
    Surface × Dict :=
  let p : ℚ × ℚ :=
    if s.population ≠ 0 then
      let fraction_defect := s.cells.map (fun c => c.gene.get_defect_fraction)
      let m := mean fraction_defect
      (m, pstdev sq fraction_defect m)
    else
      (0, 0)
  (s, dinsert (dinsert stats "def_frac_mean" (StatVal.float (p.1 * 100)))
      "def_frac_stddev" (StatVal.float (p.2 * 100)))

/-- `gene_length_stats(surface, stats)`: mean and population standard
deviation of gene length minus one; `None` on an empty population. -/
def gene_length_stats (sq : ℚ → ℚ) (s : Surface) (stats : Dict) :
    Surface × Dict :=
  let p : StatVal × StatVal :=
    if s.population ≠ 0 then
      let lengths := s.cells.map (fun c => ((c.gene.seq.length : ℚ) - 1))
      let m := mean lengths
      (StatVal.float m, StatVal.float (pstdev sq lengths m))
    else
      (StatVal.null, StatVal.null)
  (s, dinsert (dinsert stats "length_mean" p.1) "length_stddev" p.2)

/-- `get_score_stats(surface, stats)`: mean and population standard
deviation of entity scores; `None` on an empty population. -/
def get_score_stats (sq : ℚ → ℚ) (s : Surface) (stats : Dict) :
    Surface × Dict :=
  let p : StatVal × StatVal :=
    if s.population ≠ 0 then
      let scores := s.cells.map (fun c => c.score)
      let m := mean scores
      (StatVal.float m, StatVal.float (pstdev sq scores m))
    else
      (StatVal.null, StatVal.null)
  (s, dinsert (dinsert stats "scores_mean" p.1) "scores_stddev" p.2)

/-- `get_age_stats(surface, stats)`: mean and population standard deviation
of entity ages; `None` on an empty population. -/
def get_age_stats (sq : ℚ → ℚ) (s : Surface) (stats : Dict) :
    Surface × Dict :=
  let p : StatVal × StatVal :=
    if s.population ≠ 0 then
      let ages := s.cells.map (fun c => c.age)
      let m := mean ages
      (StatVal.float m, StatVal.float (pstdev sq ages m))
    else
      (StatVal.null, StatVal.null)
  (s, dinsert (dinsert stats "age_mean" p.1) "age_stddev" p.2)

/-- The body of the category counting loop of `get_rule_stats`: increment
the first matching counter of the `tft / t2t / ftf / alld / allc` elif
chain. -/
def ruleStep (n : Nat × Nat × Nat × Nat × Nat) (c : Cell) :
    Nat × Nat × Nat × Nat × Nat :=
  if c.is_tft then (n.1 + 1, n.2.1, n.2.2.1, n.2.2.2.1, n.2.2.2.2)
  else if c.is_t2t then (n.1, n.2.1 + 1, n.2.2.1, n.2.2.2.1, n.2.2.2.2)
  else if c.is_ftf then (n.1, n.2.1, n.2.2.1 + 1, n.2.2.2.1, n.2.2.2.2)
  else if c.is_alld then (n.1, n.2.1, n.2.2.1, n.2.2.2.1 + 1, n.2.2.2.2)
  else if c.is_allc then (n.1, n.2.1, n.2.2.1, n.2.2.2.1, n.2.2.2.2 + 1)
  else n

/-- The category counting loop of `get_rule_stats`: a forward fold of
`ruleStep` over the population. -/
def ruleCounts (cells : List Cell) : Nat × Nat × Nat × Nat × Nat :=
  cells.foldl ruleStep (0, 0, 0, 0, 0)

/-- `get_rule_stats(surface, stats)`: fraction of the population classified
under each of the five behavioural rules, scaled to percent; all five
default to `0` on an empty population. -/
def get_rule_stats (s : Surface) (stats : Dict) : Surface × Dict :=
  let f : ℚ × ℚ × ℚ × ℚ × ℚ :=
    if s.population ≠ 0 then
      let n := ruleCounts s.cells
      (((n.1 : ℚ)) / ((s.population : ℚ)),
       ((n.2.1 : ℚ)) / ((s.population : ℚ)),
       ((n.2.2.1 : ℚ)) / ((s.population : ℚ)),
       ((n.2.2.2.1 : ℚ)) / ((s.population : ℚ)),
       ((n.2.2.2.2 : ℚ)) / ((s.population : ℚ)))
    else
      (0, 0, 0, 0, 0)
  (s, dinsert (dinsert (dinsert (dinsert (dinsert stats
      "rule_frac_tfts" (StatVal.float (f.1 * 100)))
      "rule_frac_t2ts" (StatVal.float (f.2.1 * 100)))
      "rule_frac_ftfs" (StatVal.float (f.2.2.1 * 100)))
      "rule_frac_alld" (StatVal.float (f.2.2.2.1 * 100)))
      "rule_frac_allc" (StatVal.float (f.2.2.2.2 * 100)))

/-- `get_population_stats(surface, stats)`: relative population as a
percentage of the map size, and the absolute population count.  A zero map
size raises `ZeroDivisionError` in the source, hence `none`. -/
def get_population_stats (s : Surface) (stats : Dict) :
    Option (Surface × Dict) :=
  let map_size := s.width * s.height
  if map_size ≠ 0 then
    let rel_population : ℚ := ((s.population : ℚ)) / ((map_size : ℚ))
    some (s, dinsert (dinsert stats "pop_rel" (StatVal.float (rel_population * 100)))
        "pop_abs" (StatVal.int s.population))
  else
    none

/-- `get_stats(surface)`: runs the six sub-passes in source order on a fresh
dict (`get_population_stats` is not invoked) and returns the surface state
together with the accumulated record. -/
def get_stats (sq : ℚ → ℚ) (s : Surface) : Option (Surface × Dict) :=
  (init_move_stats s []).map (fun r1 =>
    let r2 := fraction_def_stats sq r1.1 r1.2
    let r3 := gene_length_stats sq r2.1 r2.2
    let r4 := get_score_stats sq r3.1 r3.2
    let r5 := get_rule_stats r4.1 r4.2
    get_age_stats sq r5.1 r5.2)

/-- One scatter series handed to the plotting backend: the `name`, `x` and
`y` entries of a `plot_data[k]` dict (the constant `mode` field is omitted
as it carries no data). -/
structure Series : Type where
  name : String
  x : List Nat
  y : List StatVal
deriving DecidableEq, Repr

deriving instance DecidableEq for Except

/-- The accumulating `plot_data` dict of `output_plot`: key, x list, y list. -/
abbrev PlotData : Type := List (String × List Nat × List StatVal)

/-- One iteration of the inner loop of `output_plot`:
`plot_data[k]['x'].append(i); plot_data[k]['y'].append(v)`.  Reading
`plot_data[k]` raises `KeyError` when `k` is absent, hence `none`. -/
def appendPoint (pd : PlotData) (i : Nat) (k : String) (v : StatVal) :
    Option PlotData :=
  if pd.any (fun e => e.1 = k) then
    some (pd.map (fun e => if e.1 = k then (e.1, e.2.1 ++ [i], e.2.2 ++ [v]) else e))
  else
    none

/-- Processing one record `d` at step index `i`: the inner
`for k, v in d.items()` loop. -/
def recordStep (i : Nat) (d : Dict) (pd : PlotData) : Option PlotData :=
  d.foldlM (fun pd2 p => appendPoint pd2 i p.1 p.2) pd

/-- The outer `for i, d in enumerate(data)` loop of `output_plot`. -/
def plotSteps : List Dict → Nat → PlotData → Option PlotData
  | [], _, pd => some pd
  | d :: ds, i, pd => (recordStep i d pd).bind (plotSteps ds (i + 1))

/-- `output_plot(path, data)`: initialises one empty series per key of
`data[0]`, appends one `(i, value)` point per record entry, and emits the
series in sorted key order.  An empty `data` raises `IndexError` at
`data[0]`; an entry whose key was not in `data[0]` raises `KeyError`; in
either error case no chart artifact is produced.  The list of emitted
series stands for the artifact the external backend writes at `path`. -/
def output_plot (data : List Dict) : Except String (List Series) :=
  match data with
  | [] => Except.error "IndexError"
  | d0 :: _ =>
    let pd0 : PlotData := (d0.map (fun p => p.1)).map (fun k => (k, [], []))
    match plotSteps data 0 pd0 with
    | none => Except.error "KeyError"
    | some pd =>
      Except.ok (((pd.map (fun e => e.1)).insertionSort (fun a b => a ≤ b)).map
        (fun k =>
          match pd.find? (fun e => e.1 = k) with
          | some e => ⟨e.1, e.2.1, e.2.2⟩
          | none => ⟨k, [], []⟩))

/-- The five behavioural archetypes of the rule classification. -/
inductive RuleCat : Type
  | tfts : RuleCat
  | t2ts : RuleCat
  | ftfs : RuleCat
  | alld : RuleCat
  | allc : RuleCat
deriving DecidableEq, Repr

/-- The specification's reading of the `get_rule_stats` elif chain: the at
most one category an entity is counted under, assigned by first-match
priority (tit-for-tat, two-tits-for-tat, forgiving-tit-for-tat,
always-defect, always-cooperate). -/
def ruleCategory (c : Cell) : Option RuleCat :=
  if c.is_tft then some RuleCat.tfts
  else if c.is_t2t then some RuleCat.t2ts
  else if c.is_ftf then some RuleCat.ftfs
  else if c.is_alld then some RuleCat.alld
  else if c.is_allc then some RuleCat.allc
  else none

/-- Number of entities of a population assigned to a given category. -/
def catCount (cells : List Cell) (cat : RuleCat) : Nat :=
  cells.countP (fun c => ruleCategory c = some cat)

/-- Names for the six sub-passes invoked by `get_stats`. -/
inductive PassId : Type
  | initMove : PassId
  | fracDef : PassId
  | geneLen : PassId
  | score : PassId
  | rule : PassId
  | age : PassId
deriving DecidableEq, Repr

/-- Run one sub-pass on the shared stats dict (the surface component is
dropped: every pass leaves it unchanged, see the frame lemmas). -/
def runPass (sq : ℚ → ℚ) (s : Surface) : PassId → Dict → Option Dict
  | PassId.initMove, d => (init_move_stats s d).map (fun r => r.2)
  | PassId.fracDef, d => some (fraction_def_stats sq s d).2
  | PassId.geneLen, d => some (gene_length_stats sq s d).2
  | PassId.score, d => some (get_score_stats sq s d).2
  | PassId.rule, d => some (get_rule_stats s d).2
  | PassId.age, d => some (get_age_stats sq s d).2

/-- Run a list of sub-passes left to right on the shared stats dict. -/
def applyPasses (sq : ℚ → ℚ) (s : Surface) : List PassId → Dict → Option Dict
  | [], d => some d
  | p :: l, d => (runPass sq s p d).bind (applyPasses sq s l)

/-- The keys each sub-pass writes. -/
def passKeys : PassId → List String
  | PassId.initMove => ["init_move_frac"]
  | PassId.fracDef => ["def_frac_mean", "def_frac_stddev"]
  | PassId.geneLen => ["length_mean", "length_stddev"]
  | PassId.score => ["scores_mean", "scores_stddev"]
  | PassId.rule => ["rule_frac_tfts", "rule_frac_t2ts", "rule_frac_ftfs",
      "rule_frac_alld", "rule_frac_allc"]
  | PassId.age => ["age_mean", "age_stddev"]

/-- The six sub-passes in the order `get_stats` runs them. -/
def stdPasses : List PassId :=
  [PassId.initMove, PassId.fracDef, PassId.geneLen, PassId.score,
   PassId.rule, PassId.age]

/-- The value a sub-pass writes under key `k` on the current surface,
read off from a run of the pass on the empty dict.  Each pass writes values
that depend only on the surface, so this is the value it writes into any
dict. -/
def passValue (sq : ℚ → ℚ) (s : Surface) (p : PassId) (k : String) : StatVal :=
  ((runPass sq s p []).bind (fun d => dlookup d k)).getD StatVal.null

/-- The record `get_stats` returns on an empty population: seven null
markers, and zero percentages for the defect-fraction and rule-fraction
statistics. -/
def emptyStats : Dict :=
  [("init_move_frac", StatVal.null),
   ("def_frac_mean", StatVal.float 0),
   ("def_frac_stddev", StatVal.float 0),
   ("length_mean", StatVal.null),
   ("length_stddev", StatVal.null),
   ("scores_mean", StatVal.null),
   ("scores_stddev", StatVal.null),
   ("rule_frac_tfts", StatVal.float 0),
   ("rule_frac_t2ts", StatVal.float 0),
   ("rule_frac_ftfs", StatVal.float 0),
   ("rule_frac_alld", StatVal.float 0),
   ("rule_frac_allc", StatVal.float 0),
   ("age_mean", StatVal.null),
   ("age_stddev", StatVal.null)]

/-- The fourteen keys of a `get_stats` record, in insertion order. -/
def statKeys : List String :=
  ["init_move_frac", "def_frac_mean", "def_frac_stddev",
   "length_mean", "length_stddev", "scores_mean", "scores_stddev",
   "rule_frac_tfts", "rule_frac_t2ts", "rule_frac_ftfs",
   "rule_frac_alld", "rule_frac_allc", "age_mean", "age_stddev"]

/-- A concrete entity with no matching behavioural classifier, used in
example instantiations. -/
def exCell : Cell :=
  ⟨⟨[Choice.C, Choice.D]⟩, 1, 2, false, false, false, false, false⟩

def exShortCell : Cell :=
  ⟨⟨[Choice.C]⟩, 0, 0, false, false, false, false, false⟩

def exCoopCell : Cell :=
  ⟨⟨[Choice.C, Choice.C]⟩, 0, 1, false, false, false, false, false⟩

def exTftCell : Cell := ⟨⟨[]⟩, 0, 0, true, false, false, false, false⟩

def exT2tCell : Cell := ⟨⟨[]⟩, 0, 0, false, true, false, false, false⟩

def exFtfCell : Cell := ⟨⟨[]⟩, 0, 0, false, false, true, false, false⟩

def exAlldCell : Cell := ⟨⟨[]⟩, 0, 0, false, false, false, true, false⟩

def exAllcCell : Cell := ⟨⟨[]⟩, 0, 0, false, false, false, false, true⟩

def exRuleSurface : Surface :=
  ⟨5, 1, [exTftCell, exT2tCell, exFtfCell, exAlldCell, exAllcCell]⟩


/-! ## Dictionary and frame lemmas -/

theorem dlookup_dinsert (d : Dict) (k : String) (v : StatVal) (k2 : String) :
    dlookup (dinsert d k v) k2 = if k2 = k then some v else dlookup d k2 := by
  unfold dinsert dlookup
  by_cases h : d.any (fun p => p.1 = k)
  · simp only [h, if_true, List.find?_map]
    by_cases hk : k2 = k
    · subst hk
      have hsome : (d.find? (fun p => decide (p.1 = k2))).isSome := by
        rw [List.find?_isSome]
        rcases List.any_eq_true.mp h with ⟨p, hp, hpk⟩
        exact ⟨p, hp, hpk⟩
      rcases Option.isSome_iff_exists.mp hsome with ⟨q, hq⟩
      have hcomp : ((fun p => decide (p.1 = k2)) ∘
          fun p : String × StatVal => if p.1 = k2 then (k2, v) else p) =
          (fun p => decide (p.1 = k2)) := by
        funext p
        by_cases hp : p.1 = k2 <;> simp [hp]
      rw [hcomp, hq]
      have hqk : q.1 = k2 := by simpa using List.find?_some hq
      simp [hqk]
    · have hcomp : ((fun p => decide (p.1 = k2)) ∘
          fun p : String × StatVal => if p.1 = k then (k, v) else p) =
          (fun p => decide (p.1 = k2)) := by
        funext p
        by_cases hp : p.1 = k <;> simp [hp, hk, Ne.symm hk]
      rw [hcomp]
      rcases hfd : d.find? (fun p => decide (p.1 = k2)) with _ | q
      · rw [hfd]
        simp [hk]
      · have hqk : q.1 = k2 := by simpa using List.find?_some hfd
        have hqnk : ¬ q.1 = k := by rw [hqk]; exact hk
        rw [hfd]
        simp [hk, hqnk]
  · simp only [h, if_false, List.find?_append]
    have hall : ∀ p ∈ d, ¬ p.1 = k := by
      intro p hp
      by_contra hc
      exact h (List.any_eq_true.mpr ⟨p, hp, by simpa using hc⟩)
    by_cases hk : k2 = k
    · subst hk
      have hnone : d.find? (fun p => decide (p.1 = k2)) = none :=
        List.find?_eq_none.mpr (by intro p hp; simpa using hall p hp)
      simp [hnone, List.find?_cons]
    · have hone : List.find? (fun p => decide (p.1 = k2)) [(k, v)] = none := by
        simp [List.find?_cons, Ne.symm hk]
      simp [hone, hk]



theorem keys_dinsert (d : Dict) (k : String) (v : StatVal)
    (h : k ∉ d.map (fun p => p.1)) :
    (dinsert d k v).map (fun p => p.1) = d.map (fun p => p.1) ++ [k] := by
  unfold dinsert
  have hany : d.any (fun p => p.1 = k) = false := by
    rw [List.any_eq_false]
    intro p hp
    simp only [decide_eq_true_eq]
    intro hc
    exact h (by rw [← hc]; exact List.mem_map_of_mem _ hp)
  simp [hany]

theorem fraction_def_stats_fst (sq : ℚ → ℚ) (s : Surface) (d : Dict) :
    (fraction_def_stats sq s d).1 = s := rfl

theorem gene_length_stats_fst (sq : ℚ → ℚ) (s : Surface) (d : Dict) :
    (gene_length_stats sq s d).1 = s := rfl

theorem get_score_stats_fst (sq : ℚ → ℚ) (s : Surface) (d : Dict) :
    (get_score_stats sq s d).1 = s := rfl

theorem get_age_stats_fst (sq : ℚ → ℚ) (s : Surface) (d : Dict) :
    (get_age_stats sq s d).1 = s := rfl

theorem get_rule_stats_fst (s : Surface) (d : Dict) :
    (get_rule_stats s d).1 = s := rfl

theorem init_move_stats_fst (s : Surface) (d : Dict) (r : Surface × Dict)
    (h : init_move_stats s d = some r) : r.1 = s := by
  unfold init_move_stats at h
  split at h
  · rcases Option.map_eq_some'.mp h with ⟨ms, hms, hb⟩
    rw [← hb]
  · cases h
    rfl

theorem get_population_stats_fst (s : Surface) (d : Dict) (r : Surface × Dict)
    (h : get_population_stats s d = some r) : r.1 = s := by
  unfold get_population_stats at h
  by_cases hm : s.width * s.height ≠ 0
  · simp only [if_pos hm] at h
    cases h
    rfl
  · simp only [if_neg hm] at h
    cases h

theorem get_stats_fst (sq : ℚ → ℚ) (s : Surface) (r : Surface × Dict)
    (h : get_stats sq s = some r) : r.1 = s := by
  unfold get_stats at h
  rcases Option.map_eq_some'.mp h with ⟨r1, h1, hb⟩
  rw [← hb]
  simp only [get_age_stats_fst, get_rule_stats_fst, get_score_stats_fst,
    gene_length_stats_fst, fraction_def_stats_fst]
  exact init_move_stats_fst s [] r1 h1

theorem init_move_stats_pop_zero (s : Surface) (h : s.population = 0) (d : Dict) :
    init_move_stats s d = some (s, dinsert d "init_move_frac" StatVal.null) := by
  unfold init_move_stats
  simp [h]

theorem fraction_def_stats_pop_zero (sq : ℚ → ℚ) (s : Surface)
    (h : s.population = 0) (d : Dict) :
    (fraction_def_stats sq s d).2 =
      dinsert (dinsert d "def_frac_mean" (StatVal.float 0))
        "def_frac_stddev" (StatVal.float 0) := by
  unfold fraction_def_stats
  simp [h]

theorem gene_length_stats_pop_zero (sq : ℚ → ℚ) (s : Surface)
    (h : s.population = 0) (d : Dict) :
    (gene_length_stats sq s d).2 =
      dinsert (dinsert d "length_mean" StatVal.null)
        "length_stddev" StatVal.null := by
  unfold gene_length_stats
  simp [h]

theorem get_score_stats_pop_zero (sq : ℚ → ℚ) (s : Surface)
    (h : s.population = 0) (d : Dict) :
    (get_score_stats sq s d).2 =
      dinsert (dinsert d "scores_mean" StatVal.null)
        "scores_stddev" StatVal.null := by
  unfold get_score_stats
  simp [h]

theorem get_age_stats_pop_zero (sq : ℚ → ℚ) (s : Surface)
    (h : s.population = 0) (d : Dict) :
    (get_age_stats sq s d).2 =
      dinsert (dinsert d "age_mean" StatVal.null)
        "age_stddev" StatVal.null := by
  unfold get_age_stats
  simp [h]

theorem get_rule_stats_pop_zero (s : Surface) (h : s.population = 0) (d : Dict) :
    (get_rule_stats s d).2 =
      dinsert (dinsert (dinsert (dinsert (dinsert d
        "rule_frac_tfts" (StatVal.float 0))
        "rule_frac_t2ts" (StatVal.float 0))
        "rule_frac_ftfs" (StatVal.float 0))
        "rule_frac_alld" (StatVal.float 0))
        "rule_frac_allc" (StatVal.float 0) := by
  unfold get_rule_stats
  simp [h]

theorem get_stats_pop_zero (sq : ℚ → ℚ) (s : Surface) (h : s.population = 0) :
    get_stats sq s = some (s, emptyStats) := by
  unfold get_stats
  rw [init_move_stats_pop_zero s h []]
  simp only [Option.map_some', fraction_def_stats_fst, gene_length_stats_fst,
    get_score_stats_fst, get_age_stats_fst, get_rule_stats_fst,
    fraction_def_stats_pop_zero sq s h, gene_length_stats_pop_zero sq s h,
    get_score_stats_pop_zero sq s h, get_rule_stats_pop_zero s h,
    Option.some.injEq]
  refine Prod.ext ?_ ?_
  · rw [get_age_stats_fst]
  · rw [get_age_stats_pop_zero sq s h]
    dsimp only
    decide


/-! ## Record keys, and claims about get_stats records -/

theorem keys_dinsertT (d : Dict) (k : String) (v : StatVal) :
    (dinsert d k v).map (fun p => p.1) =
      if k ∈ d.map (fun p => p.1) then d.map (fun p => p.1)
      else d.map (fun p => p.1) ++ [k] := by
  unfold dinsert
  by_cases h : k ∈ d.map (fun p => p.1)
  · rcases List.mem_map.mp h with ⟨p, hp, hpk⟩
    have hany : d.any (fun p => p.1 = k) = true :=
      List.any_eq_true.mpr ⟨p, hp, by simpa using hpk⟩
    simp only [hany, if_true, if_pos h, List.map_map]
    refine List.map_congr_left ?_
    intro q hq
    by_cases hqk : q.1 = k <;> simp [hqk]
  · have hany : d.any (fun p => p.1 = k) = false := by
      rw [List.any_eq_false]
      intro p hp
      simp only [decide_eq_true_eq]
      intro hc
      exact h (by rw [← hc]; exact List.mem_map_of_mem _ hp)
    simp [hany, if_neg h]

theorem get_stats_keys (sq : ℚ → ℚ) (s : Surface) (r : Surface × Dict)
    (h : get_stats sq s = some r) : r.2.map (fun p => p.1) = statKeys := by
  unfold get_stats at h
  rcases Option.map_eq_some'.mp h with ⟨r1, h1, hb⟩
  have h12 : ∃ v, r1.2 = dinsert [] "init_move_frac" v := by
    unfold init_move_stats at h1
    split at h1
    · rcases Option.map_eq_some'.mp h1 with ⟨ms, hms, hbb⟩
      exact ⟨_, by rw [← hbb]⟩
    · exact ⟨_, by cases h1; rfl⟩
  rcases h12 with ⟨v, hv⟩
  have k1 : r1.2.map (fun p => p.1) = ["init_move_frac"] := by
    rw [hv]
    rfl
  have k2 : ((fraction_def_stats sq r1.1 r1.2).2).map (fun p => p.1) =
      ["init_move_frac", "def_frac_mean", "def_frac_stddev"] := by
    unfold fraction_def_stats
    dsimp only
    simp only [keys_dinsertT, k1]
    simp
  have k3 : ((gene_length_stats sq r1.1
      ((fraction_def_stats sq r1.1 r1.2).2)).2).map (fun p => p.1) =
      ["init_move_frac", "def_frac_mean", "def_frac_stddev",
       "length_mean", "length_stddev"] := by
    unfold gene_length_stats
    dsimp only
    simp only [keys_dinsertT, k2]
    simp
  have k4 : ((get_score_stats sq r1.1 ((gene_length_stats sq r1.1
      ((fraction_def_stats sq r1.1 r1.2).2)).2)).2).map (fun p => p.1) =
      ["init_move_frac", "def_frac_mean", "def_frac_stddev",
       "length_mean", "length_stddev", "scores_mean", "scores_stddev"] := by
    unfold get_score_stats
    dsimp only
    simp only [keys_dinsertT, k3]
    simp
  have k5 : ((get_rule_stats r1.1 ((get_score_stats sq r1.1
      ((gene_length_stats sq r1.1
      ((fraction_def_stats sq r1.1 r1.2).2)).2)).2)).2).map (fun p => p.1) =
      ["init_move_frac", "def_frac_mean", "def_frac_stddev",
       "length_mean", "length_stddev", "scores_mean", "scores_stddev",
       "rule_frac_tfts", "rule_frac_t2ts", "rule_frac_ftfs",
       "rule_frac_alld", "rule_frac_allc"] := by
    unfold get_rule_stats
    dsimp only
    simp only [keys_dinsertT, k4]
    simp
  have k6 : ((get_age_stats sq r1.1 ((get_rule_stats r1.1
      ((get_score_stats sq r1.1 ((gene_length_stats sq r1.1
      ((fraction_def_stats sq r1.1 r1.2).2)).2)).2)).2)).2).map (fun p => p.1) =
      statKeys := by
    unfold get_age_stats
    dsimp only
    simp only [keys_dinsertT, k5]
    simp [statKeys]
  rw [← hb]
  dsimp only
  simp only [fraction_def_stats_fst, gene_length_stats_fst, get_score_stats_fst,
    get_rule_stats_fst]
  exact k6



/-- Claim C1: on a surface with population 0, `get_stats` returns a record
whose `init_move_frac`, length, scores and age statistics are the null
marker, while the defect-fraction and all five rule-fraction statistics
equal 0.0. -/
theorem claim_C1_empty_population (sq : ℚ → ℚ) (s : Surface)
    (h : s.population = 0) :
    get_stats sq s = some (s, emptyStats) ∧
    dlookup emptyStats "init_move_frac" = some StatVal.null ∧
    dlookup emptyStats "length_mean" = some StatVal.null ∧
    dlookup emptyStats "length_stddev" = some StatVal.null ∧
    dlookup emptyStats "scores_mean" = some StatVal.null ∧
    dlookup emptyStats "scores_stddev" = some StatVal.null ∧
    dlookup emptyStats "age_mean" = some StatVal.null ∧
    dlookup emptyStats "age_stddev" = some StatVal.null ∧
    dlookup emptyStats "def_frac_mean" = some (StatVal.float 0) ∧
    dlookup emptyStats "def_frac_stddev" = some (StatVal.float 0) ∧
    dlookup emptyStats "rule_frac_tfts" = some (StatVal.float 0) ∧
    dlookup emptyStats "rule_frac_t2ts" = some (StatVal.float 0) ∧
    dlookup emptyStats "rule_frac_ftfs" = some (StatVal.float 0) ∧
    dlookup emptyStats "rule_frac_alld" = some (StatVal.float 0) ∧
    dlookup emptyStats "rule_frac_allc" = some (StatVal.float 0) :=
  ⟨get_stats_pop_zero sq s h, by decide⟩

section

attribute [local semireducible] Rat.mul Rat.add Rat.sub Rat.inv

/-- Witness for C1 at a concrete empty 2-by-2 surface. -/
theorem claim_C1_witness :
    Surface.population ⟨2, 2, []⟩ = 0 ∧
    get_stats id ⟨2, 2, []⟩ = some (⟨2, 2, []⟩, emptyStats) :=
  ⟨by decide, (claim_C1_empty_population id ⟨2, 2, []⟩ (by decide)).1⟩

end

/-- Claim C2: every record produced by `get_stats` has exactly the fourteen
statistic keys, in insertion order; in particular `pop_rel` and `pop_abs`
are absent, because `get_population_stats` is not part of the composition. -/
theorem claim_C2_record_keys (sq : ℚ → ℚ) (s : Surface) (r : Surface × Dict)
    (h : get_stats sq s = some r) :
    r.2.map (fun p => p.1) = statKeys ∧
    "pop_rel" ∉ r.2.map (fun p => p.1) ∧
    "pop_abs" ∉ r.2.map (fun p => p.1) := by
  have hk := get_stats_keys sq s r h
  refine ⟨hk, ?_, ?_⟩
  · rw [hk]
    decide
  · rw [hk]
    decide

section

attribute [local semireducible] Rat.mul Rat.add Rat.sub Rat.inv

/-- Witness for C2 at a concrete empty surface. -/
theorem claim_C2_witness :
    get_stats id ⟨1, 3, []⟩ = some (⟨1, 3, []⟩, emptyStats) ∧
    emptyStats.map (fun p => p.1) = statKeys :=
  ⟨by decide,
   (claim_C2_record_keys id ⟨1, 3, []⟩ (⟨1, 3, []⟩, emptyStats) (by decide)).1⟩

end

/-- Claim C7: with a nonzero map size, `get_population_stats` records
`pop_rel` as population divided by width times height, as a percentage, and
`pop_abs` as the integer population count. -/
theorem claim_C7_population_stats (s : Surface) (d : Dict)
    (h : s.width * s.height ≠ 0) :
    (get_population_stats s d).map (fun r =>
        (r.1, dlookup r.2 "pop_rel", dlookup r.2 "pop_abs")) =
      some (s,
        some (StatVal.float ((s.population : ℚ) /
          ((s.width * s.height : Nat) : ℚ) * 100)),
        some (StatVal.int s.population)) := by
  unfold get_population_stats
  simp only [if_pos h, Option.map_some']
  simp [dlookup_dinsert]

section

attribute [local semireducible] Rat.mul Rat.add Rat.sub Rat.inv

/-- Witness for C7: population 3 on a 2-by-2 grid yields 75.0 and 3. -/
theorem claim_C7_witness :
    (2 * 2 : Nat) ≠ 0 ∧
    (get_population_stats ⟨2, 2, [exCell, exCell, exCell]⟩ []).map (fun r =>
        (r.1, dlookup r.2 "pop_rel", dlookup r.2 "pop_abs")) =
      some (⟨2, 2, [exCell, exCell, exCell]⟩,
        some (StatVal.float 75), some (StatVal.int 3)) :=
  ⟨by decide,
   (claim_C7_population_stats ⟨2, 2, [exCell, exCell, exCell]⟩ []
      (by decide)).trans (by decide)⟩

end

/-- Claim C9: neither `get_stats` nor any individual aggregation pass
changes the surface: the surface component of each result equals the input
surface, so population, dimensions and all entity states are preserved. -/
theorem claim_C9_read_only (sq : ℚ → ℚ) (s : Surface) :
    (∀ d, (fraction_def_stats sq s d).1 = s) ∧
    (∀ d, (gene_length_stats sq s d).1 = s) ∧
    (∀ d, (get_score_stats sq s d).1 = s) ∧
    (∀ d, (get_age_stats sq s d).1 = s) ∧
    (∀ d, (get_rule_stats s d).1 = s) ∧
    (∀ d r, init_move_stats s d = some r → r.1 = s) ∧
    (∀ d r, get_population_stats s d = some r → r.1 = s) ∧
    (∀ r, get_stats sq s = some r → r.1 = s) :=
  ⟨fun _ => rfl, fun _ => rfl, fun _ => rfl, fun _ => rfl, fun _ => rfl,
   fun d r h => init_move_stats_fst s d r h,
   fun d r h => get_population_stats_fst s d r h,
   fun r h => get_stats_fst sq s r h⟩

section

attribute [local semireducible] Rat.mul Rat.add Rat.sub Rat.inv

/-- Witness for C9 at a concrete surface. -/
theorem claim_C9_witness :
    get_stats id ⟨3, 3, []⟩ = some (⟨3, 3, []⟩, emptyStats) ∧
    ((⟨3, 3, []⟩ : Surface), emptyStats).1 = (⟨3, 3, []⟩ : Surface) :=
  ⟨by decide,
   (claim_C9_read_only id ⟨3, 3, []⟩).2.2.2.2.2.2.2
     (⟨3, 3, []⟩, emptyStats) (by decide)⟩

end


/-! ## Claims about init_move_stats and get_rule_stats -/

theorem mapM_choice_eq_map (l : List Cell) (f : Cell → Option Choice)
    (h : ∀ c ∈ l, (f c).isSome) :
    l.mapM f = some (l.map (fun c => (f c).getD Choice.C)) := by
  induction l with
  | nil => rfl
  | cons c t ih =>
    have hc : (f c).isSome := h c (List.mem_cons_self c t)
    rcases Option.isSome_iff_exists.mp hc with ⟨y, hy⟩
    rw [List.mapM_cons, hy, ih (fun x hx => h x (List.mem_cons_of_mem c hx))]
    simp [hy]

theorem mapM_choice_none (l : List Cell) (f : Cell → Option Choice)
    (h : ∃ c ∈ l, f c = none) : l.mapM f = none := by
  induction l with
  | nil => simp at h
  | cons c t ih =>
    rw [List.mapM_cons]
    rcases h with ⟨x, hx, hfx⟩
    rcases List.mem_cons.mp hx with rfl | hxt
    · rw [hfx]
      simp
    · cases hfc : f c
      · simp
      · rw [ih ⟨x, hxt, hfx⟩]
        simp

theorem mapM_congr_map (l1 l2 : List Cell) (f g : Cell → Option Choice)
    (h : l1.map f = l2.map g) : l1.mapM f = l2.mapM g := by
  induction l1 generalizing l2 with
  | nil =>
    cases l2 with
    | nil => rfl
    | cons c2 t2 => simp at h
  | cons c t ih =>
    cases l2 with
    | nil => simp at h
    | cons c2 t2 =>
      simp only [List.map_cons, List.cons.injEq] at h
      rw [List.mapM_cons, List.mapM_cons, h.1, ih t2 h.2]



/-- Claim C10: `init_move_stats` reads each gene at index 1 with no length
guard: on a nonempty population containing a gene with fewer than two
choices the lookup fails and no value is produced, while if every gene has
at least two choices that failure branch is unreachable. -/
theorem claim_C10_no_length_guard (s : Surface) (d : Dict)
    (hN : s.population ≠ 0) :
    ((∃ c ∈ s.cells, c.gene.seq.length < 2) → init_move_stats s d = none) ∧
    ((∀ c ∈ s.cells, 2 ≤ c.gene.seq.length) →
      (init_move_stats s d).isSome = true) := by
  constructor
  · rintro ⟨c, hc, hlen⟩
    unfold init_move_stats
    rw [if_pos hN, mapM_choice_none s.cells _ ⟨c, hc, ?_⟩]
    · rfl
    · unfold Gene.get_choice_at
      exact List.get?_eq_none.mpr (by omega)
  · intro hall
    unfold init_move_stats
    rw [if_pos hN, mapM_choice_eq_map s.cells _ ?_]
    · rfl
    · intro c hc
      have h2 := hall c hc
      rcases h3 : c.gene.seq.get? 1 with _ | y
      · exact absurd (List.get?_eq_none.mp h3) (by omega)
      · unfold Gene.get_choice_at
        rw [h3]
        rfl

/-- Claim C5: on a nonempty population in which every gene has a choice at
index 1, `init_move_stats` records the fraction of entities whose choice at
index 1 is the defect symbol, scaled to a percentage in the range 0 to 100;
the computation reads nothing but the choices at index 1 (in particular the
choice at index 0 is never read). -/
theorem claim_C5_init_move_fraction (s : Surface) (d : Dict)
    (hN : s.population ≠ 0)
    (hlen : ∀ c ∈ s.cells, (c.gene.get_choice_at 1).isSome) :
    (init_move_stats s d).map (fun r => dlookup r.2 "init_move_frac") =
      some (some (StatVal.float
        ((s.cells.countP (fun c => c.gene.get_choice_at 1 = some Choice.D) : ℚ) /
          (s.population : ℚ) * 100))) ∧
    0 ≤ (s.cells.countP (fun c => c.gene.get_choice_at 1 = some Choice.D) : ℚ) /
          (s.population : ℚ) * 100 ∧
    (s.cells.countP (fun c => c.gene.get_choice_at 1 = some Choice.D) : ℚ) /
          (s.population : ℚ) * 100 ≤ 100 ∧
    (∀ t : Surface,
      s.cells.map (fun c => c.gene.get_choice_at 1) =
        t.cells.map (fun c => c.gene.get_choice_at 1) →
      (init_move_stats s d).map (fun r => r.2) =
        (init_move_stats t d).map (fun r => r.2)) := by
  have hpos : (0 : ℚ) < (s.population : ℚ) := by
    exact_mod_cast Nat.pos_of_ne_zero hN
  have hcle : s.cells.countP (fun c => c.gene.get_choice_at 1 = some Choice.D) ≤
      s.population := List.countP_le_length _
  refine ⟨?_, ?_, ?_, ?_⟩
  · unfold init_move_stats
    rw [if_pos hN, mapM_choice_eq_map s.cells _ hlen]
    simp only [Option.map_some']
    have hcnt : (s.cells.map (fun c => (c.gene.get_choice_at 1).getD Choice.C)).countP
        (fun mv => mv = Choice.D) =
        s.cells.countP (fun c => c.gene.get_choice_at 1 = some Choice.D) := by
      rw [List.countP_map]
      refine List.countP_congr ?_
      intro c hc
      rcases Option.isSome_iff_exists.mp (hlen c hc) with ⟨y, hy⟩
      simp [Function.comp, hy]
    have hlength : (s.cells.map (fun c => (c.gene.get_choice_at 1).getD Choice.C)).length =
        s.population := by
      rw [List.length_map]
      rfl
    rw [dlookup_dinsert, hcnt, hlength]
    simp
  · positivity
  · have hdiv : (s.cells.countP (fun c => c.gene.get_choice_at 1 = some Choice.D) : ℚ) /
        (s.population : ℚ) ≤ 1 := by
      rw [div_le_one hpos]
      exact_mod_cast hcle
    calc (s.cells.countP (fun c => c.gene.get_choice_at 1 = some Choice.D) : ℚ) /
          (s.population : ℚ) * 100 ≤ 1 * 100 :=
            mul_le_mul_of_nonneg_right hdiv (by norm_num)
      _ = 100 := by norm_num
  · intro t hmap
    have hlt : t.cells.length = s.cells.length := by
      have := congrArg List.length hmap
      simpa using this.symm
    have hNt : t.population ≠ 0 := by
      unfold Surface.population
      rw [hlt]
      exact hN
    unfold init_move_stats
    rw [if_pos hN, if_pos hNt,
      mapM_congr_map s.cells t.cells _ _ hmap]
    rcases hms : (t.cells.mapM (fun c => c.gene.get_choice_at 1)) with _ | ms
    · rw [hms]
      rfl
    · rw [hms]
      rfl



theorem ruleStep_eq (n : Nat × Nat × Nat × Nat × Nat) (c : Cell) :
    ruleStep n c =
      (n.1 + (if ruleCategory c = some RuleCat.tfts then 1 else 0),
       n.2.1 + (if ruleCategory c = some RuleCat.t2ts then 1 else 0),
       n.2.2.1 + (if ruleCategory c = some RuleCat.ftfs then 1 else 0),
       n.2.2.2.1 + (if ruleCategory c = some RuleCat.alld then 1 else 0),
       n.2.2.2.2 + (if ruleCategory c = some RuleCat.allc then 1 else 0)) := by
  cases h1 : c.is_tft <;> cases h2 : c.is_t2t <;> cases h3 : c.is_ftf <;>
    cases h4 : c.is_alld <;> cases h5 : c.is_allc <;>
    simp [ruleStep, ruleCategory, h1, h2, h3, h4, h5]

theorem ruleCounts_aux (l : List Cell) : ∀ a b c d e : Nat,
    l.foldl ruleStep (a, b, c, d, e) =
      (a + catCount l RuleCat.tfts, b + catCount l RuleCat.t2ts,
       c + catCount l RuleCat.ftfs, d + catCount l RuleCat.alld,
       e + catCount l RuleCat.allc) := by
  induction l with
  | nil =>
    intro a b c d e
    simp [catCount]
  | cons x t ih =>
    intro a b c d e
    rw [List.foldl_cons, ruleStep_eq]
    rw [ih]
    simp only [catCount, List.countP_cons, Prod.mk.injEq,
      decide_eq_true_eq]
    omega

theorem ruleCounts_eq (l : List Cell) :
    ruleCounts l =
      (catCount l RuleCat.tfts, catCount l RuleCat.t2ts,
       catCount l RuleCat.ftfs, catCount l RuleCat.alld,
       catCount l RuleCat.allc) := by
  unfold ruleCounts
  rw [ruleCounts_aux]
  simp

theorem sum_catCount_le (l : List Cell) :
    catCount l RuleCat.tfts + catCount l RuleCat.t2ts +
      catCount l RuleCat.ftfs + catCount l RuleCat.alld +
      catCount l RuleCat.allc ≤ l.length := by
  induction l with
  | nil => simp [catCount]
  | cons c t ih =>
    simp only [catCount, List.countP_cons, List.length_cons,
      decide_eq_true_eq] at *
    rcases h : ruleCategory c with _ | cat
    · simp only [h, reduceCtorEq, if_false]
      omega
    · cases cat <;>
        simp only [h, Option.some.injEq, reduceCtorEq, if_false, if_true] <;>
        omega



/-- Claim C4: `get_rule_stats` counts each entity under at most one
category by first-match priority; each rule fraction is that category's
count divided by the population, times 100; the five fractions sum to at
most 100; and five entities with exactly one in each category give every
fraction the value 20.0. -/
theorem claim_C4_rule_fractions (s : Surface) (d : Dict)
    (hN : s.population ≠ 0) :
    dlookup (get_rule_stats s d).2 "rule_frac_tfts" =
      some (StatVal.float ((catCount s.cells RuleCat.tfts : ℚ) /
        (s.population : ℚ) * 100)) ∧
    dlookup (get_rule_stats s d).2 "rule_frac_t2ts" =
      some (StatVal.float ((catCount s.cells RuleCat.t2ts : ℚ) /
        (s.population : ℚ) * 100)) ∧
    dlookup (get_rule_stats s d).2 "rule_frac_ftfs" =
      some (StatVal.float ((catCount s.cells RuleCat.ftfs : ℚ) /
        (s.population : ℚ) * 100)) ∧
    dlookup (get_rule_stats s d).2 "rule_frac_alld" =
      some (StatVal.float ((catCount s.cells RuleCat.alld : ℚ) /
        (s.population : ℚ) * 100)) ∧
    dlookup (get_rule_stats s d).2 "rule_frac_allc" =
      some (StatVal.float ((catCount s.cells RuleCat.allc : ℚ) /
        (s.population : ℚ) * 100)) ∧
    catCount s.cells RuleCat.tfts + catCount s.cells RuleCat.t2ts +
      catCount s.cells RuleCat.ftfs + catCount s.cells RuleCat.alld +
      catCount s.cells RuleCat.allc ≤ s.population ∧
    (catCount s.cells RuleCat.tfts : ℚ) / (s.population : ℚ) * 100 +
      (catCount s.cells RuleCat.t2ts : ℚ) / (s.population : ℚ) * 100 +
      (catCount s.cells RuleCat.ftfs : ℚ) / (s.population : ℚ) * 100 +
      (catCount s.cells RuleCat.alld : ℚ) / (s.population : ℚ) * 100 +
      (catCount s.cells RuleCat.allc : ℚ) / (s.population : ℚ) * 100 ≤ 100 ∧
    (s.population = 5 →
      catCount s.cells RuleCat.tfts = 1 → catCount s.cells RuleCat.t2ts = 1 →
      catCount s.cells RuleCat.ftfs = 1 → catCount s.cells RuleCat.alld = 1 →
      catCount s.cells RuleCat.allc = 1 →
      dlookup (get_rule_stats s d).2 "rule_frac_tfts" =
          some (StatVal.float 20) ∧
        dlookup (get_rule_stats s d).2 "rule_frac_t2ts" =
          some (StatVal.float 20) ∧
        dlookup (get_rule_stats s d).2 "rule_frac_ftfs" =
          some (StatVal.float 20) ∧
        dlookup (get_rule_stats s d).2 "rule_frac_alld" =
          some (StatVal.float 20) ∧
        dlookup (get_rule_stats s d).2 "rule_frac_allc" =
          some (StatVal.float 20)) := by
  have hpos : (0 : ℚ) < (s.population : ℚ) := by
    exact_mod_cast Nat.pos_of_ne_zero hN
  have hdict : (get_rule_stats s d).2 =
      dinsert (dinsert (dinsert (dinsert (dinsert d
        "rule_frac_tfts" (StatVal.float ((catCount s.cells RuleCat.tfts : ℚ) /
          (s.population : ℚ) * 100)))
        "rule_frac_t2ts" (StatVal.float ((catCount s.cells RuleCat.t2ts : ℚ) /
          (s.population : ℚ) * 100)))
        "rule_frac_ftfs" (StatVal.float ((catCount s.cells RuleCat.ftfs : ℚ) /
          (s.population : ℚ) * 100)))
        "rule_frac_alld" (StatVal.float ((catCount s.cells RuleCat.alld : ℚ) /
          (s.population : ℚ) * 100)))
        "rule_frac_allc" (StatVal.float ((catCount s.cells RuleCat.allc : ℚ) /
          (s.population : ℚ) * 100)) := by
    unfold get_rule_stats
    simp only [if_pos hN, ruleCounts_eq]
  have L1 : dlookup (get_rule_stats s d).2 "rule_frac_tfts" =
      some (StatVal.float ((catCount s.cells RuleCat.tfts : ℚ) /
        (s.population : ℚ) * 100)) := by
    rw [hdict]
    simp [dlookup_dinsert]
  have L2 : dlookup (get_rule_stats s d).2 "rule_frac_t2ts" =
      some (StatVal.float ((catCount s.cells RuleCat.t2ts : ℚ) /
        (s.population : ℚ) * 100)) := by
    rw [hdict]
    simp [dlookup_dinsert]
  have L3 : dlookup (get_rule_stats s d).2 "rule_frac_ftfs" =
      some (StatVal.float ((catCount s.cells RuleCat.ftfs : ℚ) /
        (s.population : ℚ) * 100)) := by
    rw [hdict]
    simp [dlookup_dinsert]
  have L4 : dlookup (get_rule_stats s d).2 "rule_frac_alld" =
      some (StatVal.float ((catCount s.cells RuleCat.alld : ℚ) /
        (s.population : ℚ) * 100)) := by
    rw [hdict]
    simp [dlookup_dinsert]
  have L5 : dlookup (get_rule_stats s d).2 "rule_frac_allc" =
      some (StatVal.float ((catCount s.cells RuleCat.allc : ℚ) /
        (s.population : ℚ) * 100)) := by
    rw [hdict]
    simp [dlookup_dinsert]
  have hsum : catCount s.cells RuleCat.tfts + catCount s.cells RuleCat.t2ts +
      catCount s.cells RuleCat.ftfs + catCount s.cells RuleCat.alld +
      catCount s.cells RuleCat.allc ≤ s.population := sum_catCount_le s.cells
  have hq : (catCount s.cells RuleCat.tfts : ℚ) / (s.population : ℚ) * 100 +
      (catCount s.cells RuleCat.t2ts : ℚ) / (s.population : ℚ) * 100 +
      (catCount s.cells RuleCat.ftfs : ℚ) / (s.population : ℚ) * 100 +
      (catCount s.cells RuleCat.alld : ℚ) / (s.population : ℚ) * 100 +
      (catCount s.cells RuleCat.allc : ℚ) / (s.population : ℚ) * 100 ≤ 100 := by
    have hcast : ((catCount s.cells RuleCat.tfts + catCount s.cells RuleCat.t2ts +
        catCount s.cells RuleCat.ftfs + catCount s.cells RuleCat.alld +
        catCount s.cells RuleCat.allc : Nat) : ℚ) ≤ (s.population : ℚ) :=
      Nat.cast_le.mpr hsum
    have hdiv : ((catCount s.cells RuleCat.tfts + catCount s.cells RuleCat.t2ts +
        catCount s.cells RuleCat.ftfs + catCount s.cells RuleCat.alld +
        catCount s.cells RuleCat.allc : Nat) : ℚ) / (s.population : ℚ) ≤ 1 :=
      (div_le_one hpos).mpr hcast
    calc (catCount s.cells RuleCat.tfts : ℚ) / (s.population : ℚ) * 100 +
        (catCount s.cells RuleCat.t2ts : ℚ) / (s.population : ℚ) * 100 +
        (catCount s.cells RuleCat.ftfs : ℚ) / (s.population : ℚ) * 100 +
        (catCount s.cells RuleCat.alld : ℚ) / (s.population : ℚ) * 100 +
        (catCount s.cells RuleCat.allc : ℚ) / (s.population : ℚ) * 100 =
        ((catCount s.cells RuleCat.tfts + catCount s.cells RuleCat.t2ts +
          catCount s.cells RuleCat.ftfs + catCount s.cells RuleCat.alld +
          catCount s.cells RuleCat.allc : Nat) : ℚ) / (s.population : ℚ) * 100 := by
          push_cast
          ring
      _ ≤ 1 * 100 := mul_le_mul_of_nonneg_right hdiv (by norm_num)
      _ = 100 := by norm_num
  refine ⟨L1, L2, L3, L4, L5, hsum, hq, ?_⟩
  intro h5 ht1 ht2 ht3 ht4 ht5
  refine ⟨?_, ?_, ?_, ?_, ?_⟩
  · rw [L1, ht1, h5]
    norm_num
  · rw [L2, ht2, h5]
    norm_num
  · rw [L3, ht3, h5]
    norm_num
  · rw [L4, ht4, h5]
    norm_num
  · rw [L5, ht5, h5]
    norm_num



section

attribute [local semireducible] Rat.mul Rat.add Rat.sub Rat.inv

/-- Witness for C10: a one-choice gene makes the pass fail; two-choice
genes make it succeed. -/
theorem claim_C10_witness :
    init_move_stats ⟨1, 1, [exShortCell]⟩ [] = none ∧
    (init_move_stats ⟨1, 2, [exCell, exCoopCell]⟩ []).isSome = true :=
  ⟨(claim_C10_no_length_guard ⟨1, 1, [exShortCell]⟩ [] (by decide)).1
      (by decide),
   (claim_C10_no_length_guard ⟨1, 2, [exCell, exCoopCell]⟩ [] (by decide)).2
      (by decide)⟩

/-- Witness for C5: one defecting second choice out of two entities gives
50 percent. -/
theorem claim_C5_witness :
    (⟨1, 2, [exCell, exCoopCell]⟩ : Surface).population ≠ 0 ∧
    (init_move_stats ⟨1, 2, [exCell, exCoopCell]⟩ []).map
        (fun r => dlookup r.2 "init_move_frac") =
      some (some (StatVal.float 50)) :=
  ⟨by decide,
   ((claim_C5_init_move_fraction ⟨1, 2, [exCell, exCoopCell]⟩ []
      (by decide) (by decide)).1).trans (by decide)⟩

/-- Witness for C4: five entities, one per category, give 20.0 for every
rule fraction. -/
theorem claim_C4_witness :
    dlookup (get_rule_stats exRuleSurface []).2 "rule_frac_tfts" =
        some (StatVal.float 20) ∧
      dlookup (get_rule_stats exRuleSurface []).2 "rule_frac_t2ts" =
        some (StatVal.float 20) ∧
      dlookup (get_rule_stats exRuleSurface []).2 "rule_frac_ftfs" =
        some (StatVal.float 20) ∧
      dlookup (get_rule_stats exRuleSurface []).2 "rule_frac_alld" =
        some (StatVal.float 20) ∧
      dlookup (get_rule_stats exRuleSurface []).2 "rule_frac_allc" =
        some (StatVal.float 20) :=
  (claim_C4_rule_fractions exRuleSurface [] (by decide)).2.2.2.2.2.2.2
    (by decide) (by decide) (by decide) (by decide) (by decide) (by decide)

end


/-! ## SeriesPlotter lemmas and claims -/

theorem appendPoint_shape (keys : List String) (X : String → List Nat)
    (Y : String → List StatVal) (i : Nat) (k : String) (v : StatVal) :
    appendPoint (keys.map (fun k2 => (k2, X k2, Y k2))) i k v =
      if k ∈ keys then
        some (keys.map (fun k2 =>
          (k2, if k2 = k then X k2 ++ [i] else X k2,
           if k2 = k then Y k2 ++ [v] else Y k2)))
      else none := by
  unfold appendPoint
  by_cases hk : k ∈ keys
  · have hany : ((keys.map (fun k2 => (k2, X k2, Y k2))).any
        (fun e => e.1 = k)) = true := by
      rw [List.any_eq_true]
      exact ⟨(k, X k, Y k), List.mem_map_of_mem _ hk, by simp⟩
    rw [if_pos hany, if_pos hk, List.map_map]
    refine congrArg some (List.map_congr_left ?_)
    intro k2 hk2
    by_cases h2 : k2 = k <;> simp [h2]
  · have hany : ((keys.map (fun k2 => (k2, X k2, Y k2))).any
        (fun e => e.1 = k)) = false := by
      rw [List.any_eq_false]
      intro x hx
      rcases List.mem_map.mp hx with ⟨k2, hk2, rfl⟩
      simp only [decide_eq_true_eq]
      rintro rfl
      exact hk hk2
    rw [if_neg (by simp [hany]), if_neg hk]

theorem recordStep_shape (keys : List String) (i : Nat) :
    ∀ (d : Dict) (X : String → List Nat) (Y : String → List StatVal),
    (∀ p ∈ d, p.1 ∈ keys) →
    recordStep i d (keys.map (fun k2 => (k2, X k2, Y k2))) =
      some (keys.map (fun k2 =>
        (k2, X k2 ++ (d.filter (fun p => p.1 = k2)).map (fun _ => i),
         Y k2 ++ (d.filter (fun p => p.1 = k2)).map (fun p => p.2)))) := by
  intro d
  induction d with
  | nil =>
    intro X Y hd
    simp [recordStep]
  | cons p t ih =>
    intro X Y hd
    have hp : p.1 ∈ keys := hd p (List.mem_cons_self p t)
    unfold recordStep
    rw [List.foldlM_cons, appendPoint_shape, if_pos hp]
    have hrest := ih (fun k2 => if k2 = p.1 then X k2 ++ [i] else X k2)
      (fun k2 => if k2 = p.1 then Y k2 ++ [p.2] else Y k2)
      (fun q hq => hd q (List.mem_cons_of_mem p hq))
    unfold recordStep at hrest
    rw [Option.bind_eq_bind, Option.some_bind, hrest]
    refine congrArg some (List.map_congr_left ?_)
    intro k2 hk2
    by_cases h2 : k2 = p.1
    · subst h2
      simp [List.filter_cons, List.append_assoc]
    · have h3 : ¬ p.1 = k2 := fun hc => h2 hc.symm
      simp [List.filter_cons, h2, h3]



theorem recordStep_none (keys : List String) (i : Nat) :
    ∀ (d : Dict) (X : String → List Nat) (Y : String → List StatVal),
    (∃ p ∈ d, p.1 ∉ keys) →
    recordStep i d (keys.map (fun k2 => (k2, X k2, Y k2))) = none := by
  intro d
  induction d with
  | nil =>
    intro X Y hbad
    simp at hbad
  | cons p t ih =>
    intro X Y hbad
    unfold recordStep
    rw [List.foldlM_cons]
    by_cases hp : p.1 ∈ keys
    · rw [appendPoint_shape, if_pos hp, Option.bind_eq_bind, Option.some_bind]
      rcases hbad with ⟨q, hq, hqk⟩
      rcases List.mem_cons.mp hq with rfl | hqt
      · exact absurd hp hqk
      · exact ih _ _ ⟨q, hqt, hqk⟩
    · rw [appendPoint_shape, if_neg hp]
      rfl

theorem plotSteps_shape (keys : List String) :
    ∀ (ds : List Dict) (i : Nat) (X : String → List Nat)
      (Y : String → List StatVal),
    (∀ d ∈ ds, ∀ p ∈ d, p.1 ∈ keys) →
    (∀ d ∈ ds, ∀ k ∈ keys, d.filter (fun p => p.1 = k) =
      [(k, (dlookup d k).getD StatVal.null)]) →
    plotSteps ds i (keys.map (fun k2 => (k2, X k2, Y k2))) =
      some (keys.map (fun k2 =>
        (k2, X k2 ++ List.range' i ds.length,
         Y k2 ++ ds.map (fun d => (dlookup d k2).getD StatVal.null)))) := by
  intro ds
  induction ds with
  | nil =>
    intro i X Y h1 h2
    simp [plotSteps]
  | cons d t ih =>
    intro i X Y h1 h2
    have hd : ∀ p ∈ d, p.1 ∈ keys := h1 d (List.mem_cons_self d t)
    unfold plotSteps
    rw [recordStep_shape keys i d _ _ hd, Option.some_bind]
    rw [ih (i + 1) _ _ (fun q hq => h1 q (List.mem_cons_of_mem d hq))
      (fun q hq => h2 q (List.mem_cons_of_mem d hq))]
    refine congrArg some (List.map_congr_left ?_)
    intro k2 hk2
    have hfilt := h2 d (List.mem_cons_self d t) k2 hk2
    rw [hfilt]
    simp [List.range'_succ, List.append_assoc]

theorem plotSteps_none (keys : List String) :
    ∀ (ds : List Dict) (i : Nat) (X : String → List Nat)
      (Y : String → List StatVal),
    (∃ d ∈ ds, ∃ p ∈ d, p.1 ∉ keys) →
    plotSteps ds i (keys.map (fun k2 => (k2, X k2, Y k2))) = none := by
  intro ds
  induction ds with
  | nil =>
    intro i X Y hbad
    simp at hbad
  | cons d t ih =>
    intro i X Y hbad
    unfold plotSteps
    by_cases hd : ∀ p ∈ d, p.1 ∈ keys
    · rw [recordStep_shape keys i d _ _ hd, Option.some_bind]
      rcases hbad with ⟨q, hq, hqbad⟩
      rcases List.mem_cons.mp hq with rfl | hqt
      · rcases hqbad with ⟨p, hp, hpk⟩
        exact absurd (hd p hp) hpk
      · exact ih _ _ _ ⟨q, hqt, hqbad⟩
    · push_neg at hd
      rcases hd with ⟨p, hp, hpk⟩
      rw [recordStep_none keys i d _ _ ⟨p, hp, hpk⟩]
      rfl

theorem filter_single_of_nodup (d : Dict) (k : String)
    (hnd : (d.map (fun p => p.1)).Nodup)
    (hk : k ∈ d.map (fun p => p.1)) :
    d.filter (fun p => p.1 = k) =
      [(k, (dlookup d k).getD StatVal.null)] := by
  induction d with
  | nil => simp at hk
  | cons p t ih =>
    simp only [List.map_cons, List.nodup_cons] at hnd
    rcases hnd with ⟨hpn, hndt⟩
    rcases List.mem_cons.mp hk with rfl | hkt
    · have hft : t.filter (fun q => q.1 = p.1) = [] := by
        rw [List.filter_eq_nil_iff]
        intro q hq
        simp only [decide_eq_true_eq]
        intro hc
        exact hpn (by rw [← hc]; exact List.mem_map_of_mem _ hq)
      rw [List.filter_cons]
      simp only [decide_eq_true_eq, if_pos rfl, hft]
      unfold dlookup
      rw [List.find?_cons]
      simp
    · have hpk : ¬ p.1 = k := by
        rintro rfl
        exact hpn hkt
      rw [List.filter_cons]
      simp only [decide_eq_true_eq, if_neg hpk]
      unfold dlookup
      rw [List.find?_cons]
      have : (decide (p.1 = k)) = false := by simp [hpk]
      rw [this]
      exact ih hndt hkt

theorem find?_self_of_mem (l : List String) (k : String) (hk : k ∈ l) :
    l.find? (fun x => x = k) = some k := by
  induction l with
  | nil => simp at hk
  | cons a t ih =>
    rw [List.find?_cons]
    by_cases ha : a = k
    · subst ha
      simp
    · have : (decide (a = k)) = false := by simp [ha]
      rw [this]
      refine ih ?_
      rcases List.mem_cons.mp hk with rfl | h
      · exact absurd rfl ha
      · exact h



theorem output_plot_ok (d0 : Dict) (rest : List Dict)
    (hnd : ∀ d ∈ d0 :: rest, (d.map (fun p => p.1)).Nodup)
    (hsub : ∀ d ∈ d0 :: rest, ∀ p ∈ d, p.1 ∈ d0.map (fun p => p.1))
    (hcover : ∀ d ∈ d0 :: rest, ∀ k ∈ d0.map (fun p => p.1),
      k ∈ d.map (fun p => p.1)) :
    output_plot (d0 :: rest) =
      Except.ok (((d0.map (fun p => p.1)).insertionSort (fun a b => a ≤ b)).map
        (fun k => ⟨k, List.range (d0 :: rest).length,
          (d0 :: rest).map (fun d => (dlookup d k).getD StatVal.null)⟩)) := by
  have hsingle : ∀ d ∈ d0 :: rest, ∀ k ∈ d0.map (fun p => p.1),
      d.filter (fun p => p.1 = k) = [(k, (dlookup d k).getD StatVal.null)] :=
    fun d hd k hk => filter_single_of_nodup d k (hnd d hd) (hcover d hd k hk)
  unfold output_plot
  dsimp only
  rw [plotSteps_shape (d0.map (fun p => p.1)) (d0 :: rest) 0
    (fun _ => []) (fun _ => []) hsub hsingle]
  dsimp only
  have hkm : (List.map (fun e : String × List Nat × List StatVal => e.1)
      (List.map (fun k2 => (k2,
        [] ++ List.range' 0 (d0 :: rest).length,
        [] ++ List.map (fun d => (dlookup d k2).getD StatVal.null) (d0 :: rest)))
        (List.map (fun p => p.1) d0))) = List.map (fun p => p.1) d0 := by
    rw [List.map_map]
    simp
  rw [hkm]
  refine congrArg Except.ok (List.map_congr_left ?_)
  intro k hk
  have hk0 : k ∈ d0.map (fun p => p.1) :=
    (List.perm_insertionSort (fun a b => a ≤ b)
      (d0.map (fun p => p.1))).mem_iff.mp hk
  rw [List.find?_map]
  have hcomp : ((fun e : String × List Nat × List StatVal =>
      decide (e.1 = k)) ∘ (fun k2 => (k2,
        [] ++ List.range' 0 (d0 :: rest).length,
        [] ++ List.map (fun d => (dlookup d k2).getD StatVal.null)
          (d0 :: rest)))) = (fun k2 => decide (k2 = k)) := rfl
  rw [hcomp, find?_self_of_mem _ k hk0]
  simp [List.range_eq_range']




/-- Claim C6: on records sharing one key set, `output_plot` builds exactly
one series per key of the first record, with x values 0 to n-1 and the y
value at position i being record i's value at that key, and emits the
series in lexicographically sorted key order. -/
theorem claim_C6_series (d0 : Dict) (rest : List Dict)
    (hnd : ∀ d ∈ d0 :: rest, (d.map (fun p => p.1)).Nodup)
    (hsub : ∀ d ∈ d0 :: rest, ∀ p ∈ d, p.1 ∈ d0.map (fun p => p.1))
    (hcover : ∀ d ∈ d0 :: rest, ∀ k ∈ d0.map (fun p => p.1),
      k ∈ d.map (fun p => p.1)) :
    output_plot (d0 :: rest) =
      Except.ok (((d0.map (fun p => p.1)).insertionSort (fun a b => a ≤ b)).map
        (fun k => ⟨k, List.range (d0 :: rest).length,
          (d0 :: rest).map (fun d => (dlookup d k).getD StatVal.null)⟩)) ∧
    ((d0.map (fun p => p.1)).insertionSort (fun a b => a ≤ b)).Perm
      (d0.map (fun p => p.1)) ∧
    List.Sorted (fun a b : String => a ≤ b)
      ((d0.map (fun p => p.1)).insertionSort (fun a b => a ≤ b)) :=
  ⟨output_plot_ok d0 rest hnd hsub hcover,
   List.perm_insertionSort _ _,
   List.sorted_insertionSort _ _⟩

/-- Witness for C6: the two-record example produces series a with points
(0,1),(1,3) and b with (0,2),(1,4), in order a then b. -/
theorem claim_C6_witness :
    output_plot [[("a", StatVal.int 1), ("b", StatVal.int 2)],
                 [("a", StatVal.int 3), ("b", StatVal.int 4)]] =
      Except.ok [⟨"a", [0, 1], [StatVal.int 1, StatVal.int 3]⟩,
                 ⟨"b", [0, 1], [StatVal.int 2, StatVal.int 4]⟩] :=
  ((claim_C6_series [("a", StatVal.int 1), ("b", StatVal.int 2)]
      [[("a", StatVal.int 3), ("b", StatVal.int 4)]]
      (by decide) (by decide) (by decide)).1).trans (by
    have hm : (List.map (fun p => p.1)
        ([("a", StatVal.int 1), ("b", StatVal.int 2)] : Dict)) = ["a", "b"] := rfl
    have hsort : List.insertionSort (fun a b : String => a ≤ b) ["a", "b"] =
        ["a", "b"] := by
      simp [List.insertionSort, List.orderedInsert]
      decide
    rw [hm, hsort]
    decide)

/-- Claim C3, counterexample: a later record whose key set differs from the
first record's key set by lacking the key b does not raise any error:
`output_plot` succeeds and produces a chart, refuting the claim that any
key-set difference raises a key-lookup error. -/
theorem claim_C3_counterexample :
    ("b" ∈ ([("a", StatVal.int 1), ("b", StatVal.int 2)] : Dict).map
        (fun p => p.1) ∧
      "b" ∉ ([("a", StatVal.int 3)] : Dict).map (fun p => p.1)) ∧
    output_plot [[("a", StatVal.int 1), ("b", StatVal.int 2)],
                 [("a", StatVal.int 3)]] =
      Except.ok [⟨"a", [0, 1], [StatVal.int 1, StatVal.int 3]⟩,
                 ⟨"b", [0], [StatVal.int 2]⟩] := by
  refine ⟨⟨by decide, by decide⟩, ?_⟩
  have hsort : List.insertionSort (fun a b : String => a ≤ b) ["a", "b"] =
      ["a", "b"] := by
    simp [List.insertionSort, List.orderedInsert]
    decide
  unfold output_plot
  dsimp only
  rw [show plotSteps
      [[("a", StatVal.int 1), ("b", StatVal.int 2)], [("a", StatVal.int 3)]] 0
      (List.map (fun k => (k, [], []))
        (List.map (fun p => p.1)
          ([("a", StatVal.int 1), ("b", StatVal.int 2)] : Dict))) =
      some [("a", [0, 1], [StatVal.int 1, StatVal.int 3]),
            ("b", [0], [StatVal.int 2])] from by decide]
  dsimp only
  rw [show (List.map (fun e : String × List Nat × List StatVal => e.1)
      [("a", [0, 1], [StatVal.int 1, StatVal.int 3]),
       ("b", [0], [StatVal.int 2])]) = ["a", "b"] from rfl]
  rw [hsort]
  decide

/-- Claim C3, amended: if some later record contains a key that is absent
from the first record's key set, `output_plot` raises the key-lookup error
and produces no chart artifact. -/
theorem claim_C3_amended_error (d0 : Dict) (rest : List Dict) (r : Dict)
    (p : String × StatVal) (hr : r ∈ rest) (hp : p ∈ r)
    (hk : p.1 ∉ d0.map (fun q => q.1)) :
    output_plot (d0 :: rest) = Except.error "KeyError" := by
  unfold output_plot
  dsimp only
  rw [plotSteps_none (d0.map (fun q => q.1)) (d0 :: rest) 0
    (fun _ => []) (fun _ => []) ⟨r, List.mem_cons_of_mem d0 hr, p, hp, hk⟩]

/-- Witness for the amended C3 at a concrete input with an extra key c. -/
theorem claim_C3_witness :
    output_plot [[("a", StatVal.int 1)],
                 [("a", StatVal.int 2), ("c", StatVal.int 9)]] =
      Except.error "KeyError" :=
  claim_C3_amended_error [("a", StatVal.int 1)]
    [[("a", StatVal.int 2), ("c", StatVal.int 9)]]
    [("a", StatVal.int 2), ("c", StatVal.int 9)] ("c", StatVal.int 9)
    (by decide) (by decide) (by decide)


/-! ## Pass independence: disjoint keys, order independence (claim C8) -/

theorem passKeys_disjoint (p q : PassId) (hne : p ≠ q) (k : String)
    (hk : k ∈ passKeys p) : k ∉ passKeys q := by
  cases p <;> cases q <;>
    first
    | exact absurd rfl hne
    | (simp only [passKeys] at hk
       fin_cases hk <;> decide)

theorem dlookup_dinsert2 (d : Dict) (k1 k2 : String) (v1 v2 : StatVal)
    (k : String) :
    dlookup (dinsert (dinsert d k1 v1) k2 v2) k =
      if k = k2 then some v2 else if k = k1 then some v1 else dlookup d k := by
  rw [dlookup_dinsert, dlookup_dinsert]



theorem runPass_lookup_fracDef (sq : ℚ → ℚ) (s : Surface) (d d2 : Dict)
    (h : runPass sq s PassId.fracDef d = some d2) (k : String) :
    dlookup d2 k = if k ∈ passKeys PassId.fracDef
      then some (passValue sq s PassId.fracDef k) else dlookup d k := by
  have hd2 : d2 = (fraction_def_stats sq s d).2 := by
    injection h with h2
    exact h2.symm
  subst hd2
  show dlookup (dinsert (dinsert d "def_frac_mean" _) "def_frac_stddev" _) k = _
  rw [dlookup_dinsert2]
  simp only [passKeys, List.mem_cons, List.mem_singleton, List.not_mem_nil,
    or_false]
  by_cases h2 : k = "def_frac_stddev"
  · subst h2
    rw [if_pos rfl, if_pos (Or.inr rfl)]
    show _ = some ((dlookup ((fraction_def_stats sq s []).2)
      "def_frac_stddev").getD StatVal.null)
    show _ = some ((dlookup (dinsert (dinsert ([] : Dict) "def_frac_mean" _)
      "def_frac_stddev" _) "def_frac_stddev").getD StatVal.null)
    rw [dlookup_dinsert2, if_pos rfl]
    rfl
  · by_cases h1 : k = "def_frac_mean"
    · subst h1
      rw [if_neg h2, if_pos rfl, if_pos (Or.inl rfl)]
      show _ = some ((dlookup ((fraction_def_stats sq s []).2)
        "def_frac_mean").getD StatVal.null)
      show _ = some ((dlookup (dinsert (dinsert ([] : Dict) "def_frac_mean" _)
        "def_frac_stddev" _) "def_frac_mean").getD StatVal.null)
      rw [dlookup_dinsert2, if_neg h2, if_pos rfl]
      rfl
    · rw [if_neg h2, if_neg h1, if_neg (by
        rintro (rfl | rfl)
        · exact h1 rfl
        · exact h2 rfl)]



theorem runPass_lookup_geneLen (sq : ℚ → ℚ) (s : Surface) (d d2 : Dict)
    (h : runPass sq s PassId.geneLen d = some d2) (k : String) :
    dlookup d2 k = if k ∈ passKeys PassId.geneLen
      then some (passValue sq s PassId.geneLen k) else dlookup d k := by
  have hd2 : d2 = (gene_length_stats sq s d).2 := by
    injection h with h2
    exact h2.symm
  subst hd2
  show dlookup (dinsert (dinsert d "length_mean" _) "length_stddev" _) k = _
  rw [dlookup_dinsert2]
  simp only [passKeys, List.mem_cons, List.mem_singleton, List.not_mem_nil,
    or_false]
  by_cases h2 : k = "length_stddev"
  · subst h2
    rw [if_pos rfl, if_pos (Or.inr rfl)]
    show _ = some ((dlookup ((gene_length_stats sq s []).2) "length_stddev").getD StatVal.null)
    show _ = some ((dlookup (dinsert (dinsert ([] : Dict) "length_mean" _)
      "length_stddev" _) "length_stddev").getD StatVal.null)
    rw [dlookup_dinsert2, if_pos rfl]
    rfl
  · by_cases h1 : k = "length_mean"
    · subst h1
      rw [if_neg h2, if_pos rfl, if_pos (Or.inl rfl)]
      show _ = some ((dlookup ((gene_length_stats sq s []).2) "length_mean").getD StatVal.null)
      show _ = some ((dlookup (dinsert (dinsert ([] : Dict) "length_mean" _)
        "length_stddev" _) "length_mean").getD StatVal.null)
      rw [dlookup_dinsert2, if_neg h2, if_pos rfl]
      rfl
    · rw [if_neg h2, if_neg h1, if_neg (by
        rintro (rfl | rfl)
        · exact h1 rfl
        · exact h2 rfl)]

theorem runPass_lookup_score (sq : ℚ → ℚ) (s : Surface) (d d2 : Dict)
    (h : runPass sq s PassId.score d = some d2) (k : String) :
    dlookup d2 k = if k ∈ passKeys PassId.score
      then some (passValue sq s PassId.score k) else dlookup d k := by
  have hd2 : d2 = (get_score_stats sq s d).2 := by
    injection h with h2
    exact h2.symm
  subst hd2
  show dlookup (dinsert (dinsert d "scores_mean" _) "scores_stddev" _) k = _
  rw [dlookup_dinsert2]
  simp only [passKeys, List.mem_cons, List.mem_singleton, List.not_mem_nil,
    or_false]
  by_cases h2 : k = "scores_stddev"
  · subst h2
    rw [if_pos rfl, if_pos (Or.inr rfl)]
    show _ = some ((dlookup ((get_score_stats sq s []).2) "scores_stddev").getD StatVal.null)
    show _ = some ((dlookup (dinsert (dinsert ([] : Dict) "scores_mean" _)
      "scores_stddev" _) "scores_stddev").getD StatVal.null)
    rw [dlookup_dinsert2, if_pos rfl]
    rfl
  · by_cases h1 : k = "scores_mean"
    · subst h1
      rw [if_neg h2, if_pos rfl, if_pos (Or.inl rfl)]
      show _ = some ((dlookup ((get_score_stats sq s []).2) "scores_mean").getD StatVal.null)
      show _ = some ((dlookup (dinsert (dinsert ([] : Dict) "scores_mean" _)
        "scores_stddev" _) "scores_mean").getD StatVal.null)
      rw [dlookup_dinsert2, if_neg h2, if_pos rfl]
      rfl
    · rw [if_neg h2, if_neg h1, if_neg (by
        rintro (rfl | rfl)
        · exact h1 rfl
        · exact h2 rfl)]

theorem runPass_lookup_age (sq : ℚ → ℚ) (s : Surface) (d d2 : Dict)
    (h : runPass sq s PassId.age d = some d2) (k : String) :
    dlookup d2 k = if k ∈ passKeys PassId.age
      then some (passValue sq s PassId.age k) else dlookup d k := by
  have hd2 : d2 = (get_age_stats sq s d).2 := by
    injection h with h2
    exact h2.symm
  subst hd2
  show dlookup (dinsert (dinsert d "age_mean" _) "age_stddev" _) k = _
  rw [dlookup_dinsert2]
  simp only [passKeys, List.mem_cons, List.mem_singleton, List.not_mem_nil,
    or_false]
  by_cases h2 : k = "age_stddev"
  · subst h2
    rw [if_pos rfl, if_pos (Or.inr rfl)]
    show _ = some ((dlookup ((get_age_stats sq s []).2) "age_stddev").getD StatVal.null)
    show _ = some ((dlookup (dinsert (dinsert ([] : Dict) "age_mean" _)
      "age_stddev" _) "age_stddev").getD StatVal.null)
    rw [dlookup_dinsert2, if_pos rfl]
    rfl
  · by_cases h1 : k = "age_mean"
    · subst h1
      rw [if_neg h2, if_pos rfl, if_pos (Or.inl rfl)]
      show _ = some ((dlookup ((get_age_stats sq s []).2) "age_mean").getD StatVal.null)
      show _ = some ((dlookup (dinsert (dinsert ([] : Dict) "age_mean" _)
        "age_stddev" _) "age_mean").getD StatVal.null)
      rw [dlookup_dinsert2, if_neg h2, if_pos rfl]
      rfl
    · rw [if_neg h2, if_neg h1, if_neg (by
        rintro (rfl | rfl)
        · exact h1 rfl
        · exact h2 rfl)]



theorem dlookup_dinsert5 (d : Dict) (k1 k2 k3 k4 k5 : String)
    (v1 v2 v3 v4 v5 : StatVal) (k : String) :
    dlookup (dinsert (dinsert (dinsert (dinsert (dinsert d k1 v1) k2 v2)
        k3 v3) k4 v4) k5 v5) k =
      if k = k5 then some v5 else if k = k4 then some v4
      else if k = k3 then some v3 else if k = k2 then some v2
      else if k = k1 then some v1 else dlookup d k := by
  rw [dlookup_dinsert, dlookup_dinsert, dlookup_dinsert, dlookup_dinsert,
    dlookup_dinsert]

theorem runPass_lookup_rule (sq : ℚ → ℚ) (s : Surface) (d d2 : Dict)
    (h : runPass sq s PassId.rule d = some d2) (k : String) :
    dlookup d2 k = if k ∈ passKeys PassId.rule
      then some (passValue sq s PassId.rule k) else dlookup d k := by
  have hd2 : d2 = (get_rule_stats s d).2 := by
    injection h with h2
    exact h2.symm
  subst hd2
  show dlookup (dinsert (dinsert (dinsert (dinsert (dinsert d
    "rule_frac_tfts" _) "rule_frac_t2ts" _) "rule_frac_ftfs" _)
    "rule_frac_alld" _) "rule_frac_allc" _) k = _
  rw [dlookup_dinsert5]
  by_cases h5 : k = "rule_frac_allc"
  · subst h5
    rw [if_pos rfl,
      if_pos (show "rule_frac_allc" ∈ passKeys PassId.rule from by decide)]
    rfl
  · by_cases h4 : k = "rule_frac_alld"
    · subst h4
      rw [if_neg h5, if_pos rfl,
        if_pos (show "rule_frac_alld" ∈ passKeys PassId.rule from by decide)]
      rfl
    · by_cases h3 : k = "rule_frac_ftfs"
      · subst h3
        rw [if_neg h5, if_neg h4, if_pos rfl,
          if_pos (show "rule_frac_ftfs" ∈ passKeys PassId.rule from by decide)]
        rfl
      · by_cases h2t : k = "rule_frac_t2ts"
        · subst h2t
          rw [if_neg h5, if_neg h4, if_neg h3, if_pos rfl,
            if_pos (show "rule_frac_t2ts" ∈ passKeys PassId.rule from by
              decide)]
          rfl
        · by_cases h1 : k = "rule_frac_tfts"
          · subst h1
            rw [if_neg h5, if_neg h4, if_neg h3, if_neg h2t, if_pos rfl,
              if_pos (show "rule_frac_tfts" ∈ passKeys PassId.rule from by
                decide)]
            rfl
          · rw [if_neg h5, if_neg h4, if_neg h3, if_neg h2t, if_neg h1,
              if_neg (show ¬ k ∈ passKeys PassId.rule from by
                simp only [passKeys, List.mem_cons, List.mem_singleton,
                  List.not_mem_nil, or_false]
                rintro (rfl | rfl | rfl | rfl | rfl)
                · exact h1 rfl
                · exact h2t rfl
                · exact h3 rfl
                · exact h4 rfl
                · exact h5 rfl)]

theorem runPass_lookup_initMove (sq : ℚ → ℚ) (s : Surface) (d d2 : Dict)
    (h : runPass sq s PassId.initMove d = some d2) (k : String) :
    dlookup d2 k = if k ∈ passKeys PassId.initMove
      then some (passValue sq s PassId.initMove k) else dlookup d k := by
  have h0 : (init_move_stats s d).map (fun r => r.2) = some d2 := h
  rcases Option.map_eq_some'.mp h0 with ⟨r, hr, hd2⟩
  subst hd2
  simp only [passKeys, List.mem_singleton]
  unfold init_move_stats at hr
  by_cases hp : s.population ≠ 0
  · rw [if_pos hp] at hr
    rcases Option.map_eq_some'.mp hr with ⟨ms, hms, hrr⟩
    have hr2 : r.2 = dinsert d "init_move_frac"
        (StatVal.float ((ms.countP (fun mv => mv = Choice.D) : ℚ) /
          (ms.length : ℚ) * 100)) := by
      rw [← hrr]
    rw [hr2, dlookup_dinsert]
    by_cases hk : k = "init_move_frac"
    · subst hk
      rw [if_pos rfl, if_pos rfl]
      have hpv : passValue sq s PassId.initMove "init_move_frac" =
          StatVal.float ((ms.countP (fun mv => mv = Choice.D) : ℚ) /
            (ms.length : ℚ) * 100) := by
        show ((init_move_stats s []).map (fun r2 => r2.2) |>.bind
          (fun d3 => dlookup d3 "init_move_frac")).getD StatVal.null = _
        unfold init_move_stats
        rw [if_pos hp, hms]
        show ((dlookup (dinsert ([] : Dict) "init_move_frac" _)
          "init_move_frac").getD StatVal.null) = _
        rw [dlookup_dinsert, if_pos rfl]
        rfl
      rw [hpv]
    · rw [if_neg hk, if_neg hk]
  · rw [if_neg hp] at hr
    have hr2 : r.2 = dinsert d "init_move_frac" StatVal.null := by
      injection hr with h3
      rw [← h3]
    rw [hr2, dlookup_dinsert]
    by_cases hk : k = "init_move_frac"
    · subst hk
      rw [if_pos rfl, if_pos rfl]
      have hpv : passValue sq s PassId.initMove "init_move_frac" =
          StatVal.null := by
        show ((init_move_stats s []).map (fun r2 => r2.2) |>.bind
          (fun d3 => dlookup d3 "init_move_frac")).getD StatVal.null = _
        unfold init_move_stats
        rw [if_neg hp]
        show ((dlookup (dinsert ([] : Dict) "init_move_frac" StatVal.null)
          "init_move_frac").getD StatVal.null) = _
        rw [dlookup_dinsert, if_pos rfl]
        rfl
      rw [hpv]
    · rw [if_neg hk, if_neg hk]

theorem runPass_lookup (sq : ℚ → ℚ) (s : Surface) (p : PassId)
    (d d2 : Dict) (h : runPass sq s p d = some d2) (k : String) :
    dlookup d2 k = if k ∈ passKeys p
      then some (passValue sq s p k) else dlookup d k := by
  cases p
  · exact runPass_lookup_initMove sq s d d2 h k
  · exact runPass_lookup_fracDef sq s d d2 h k
  · exact runPass_lookup_geneLen sq s d d2 h k
  · exact runPass_lookup_score sq s d d2 h k
  · exact runPass_lookup_rule sq s d d2 h k
  · exact runPass_lookup_age sq s d d2 h k



theorem init_move_isSome (s : Surface) (d : Dict) :
    (init_move_stats s d).isSome =
      if s.population ≠ 0 then
        (s.cells.mapM (fun (c : Cell) => c.gene.get_choice_at 1)).isSome
      else true := by
  unfold init_move_stats
  by_cases hp : s.population ≠ 0
  · rw [if_pos hp, if_pos hp, Option.isSome_map']
  · rw [if_neg hp, if_neg hp]
    rfl

theorem runPass_isSome_indep (sq : ℚ → ℚ) (s : Surface) (p : PassId)
    (d d2 : Dict) :
    (runPass sq s p d).isSome = (runPass sq s p d2).isSome := by
  cases p
  · show ((init_move_stats s d).map (fun r => r.2)).isSome =
      ((init_move_stats s d2).map (fun r => r.2)).isSome
    rw [Option.isSome_map', Option.isSome_map', init_move_isSome,
      init_move_isSome]
  · rfl
  · rfl
  · rfl
  · rfl
  · rfl

theorem applyPasses_isSome (sq : ℚ → ℚ) (s : Surface) :
    ∀ (l : List PassId) (d : Dict),
    (applyPasses sq s l d).isSome =
      l.all (fun p => (runPass sq s p []).isSome) := by
  intro l
  induction l with
  | nil =>
    intro d
    rfl
  | cons p t ih =>
    intro d
    show ((runPass sq s p d).bind (applyPasses sq s t)).isSome = _
    rcases hr : runPass sq s p d with _ | dm
    · have h0 : (runPass sq s p []).isSome = false := by
        rw [← runPass_isSome_indep sq s p d [], hr]
        rfl
      simp [List.all_cons, h0]
    · have h1 : (runPass sq s p []).isSome = true := by
        rw [← runPass_isSome_indep sq s p d [], hr]
        rfl
      simp only [Option.some_bind, List.all_cons, h1, Bool.true_and]
      exact ih dm

theorem applyPasses_lookup (sq : ℚ → ℚ) (s : Surface) :
    ∀ (l : List PassId) (d d2 : Dict),
    applyPasses sq s l d = some d2 → ∀ k,
    dlookup d2 k =
      ((l.find? (fun p => k ∈ passKeys p)).map
        (fun p => some (passValue sq s p k))).getD (dlookup d k) := by
  intro l
  induction l with
  | nil =>
    intro d d2 h k
    have hd : d = d2 := by
      injection h
    subst hd
    rfl
  | cons p t ih =>
    intro d d2 h k
    have h0 : (runPass sq s p d).bind (applyPasses sq s t) = some d2 := h
    rcases hr : runPass sq s p d with _ | dm
    · rw [hr] at h0
      cases h0
    · rw [hr, Option.some_bind] at h0
      have hk2 := ih dm d2 h0 k
      rw [List.find?_cons]
      by_cases hkp : k ∈ passKeys p
      · rw [show (decide (k ∈ passKeys p)) = true from by simpa using hkp]
        rcases hft : t.find? (fun q => decide (k ∈ passKeys q)) with _ | q
        · rw [hft] at hk2
          simp only [Option.map_none', Option.getD_none] at hk2
          rw [hk2, runPass_lookup sq s p d dm hr k, if_pos hkp]
          rfl
        · rw [hft] at hk2
          simp only [Option.map_some', Option.getD_some] at hk2
          have hkq : k ∈ passKeys q := by
            simpa using List.find?_some hft
          have hqp : q = p := by
            by_contra hne
            exact passKeys_disjoint q p hne k hkq hkp
          subst hqp
          rw [hk2]
          rfl
      · rw [show (decide (k ∈ passKeys p)) = false from by simpa using hkp]
        rcases hft : t.find? (fun q => decide (k ∈ passKeys q)) with _ | q
        · rw [hft] at hk2
          simp only [Option.map_none', Option.getD_none] at hk2
          rw [hk2, runPass_lookup sq s p d dm hr k, if_neg hkp]
          simp [hft]
        · rw [hft] at hk2
          simp only [Option.map_some', Option.getD_some] at hk2
          rw [hk2]
          simp [hft]



theorem find?_eq_some_of_unique {α : Type} (l : List α) (pred : α → Bool)
    (a : α) (ha : a ∈ l) (hpa : pred a = true)
    (huniq : ∀ b ∈ l, pred b = true → b = a) :
    l.find? pred = some a := by
  induction l with
  | nil => simp at ha
  | cons x t ih =>
    rw [List.find?_cons]
    by_cases hx : pred x = true
    · rw [hx]
      exact congrArg some (huniq x (List.mem_cons_self x t) hx)
    · rw [show pred x = false from by simpa using hx]
      refine ih ?_ ?_
      · rcases List.mem_cons.mp ha with rfl | h2
        · exact absurd hpa hx
        · exact h2
      · exact fun b hb hpb => huniq b (List.mem_cons_of_mem x hb) hpb

theorem find?_perm_of_unique {α : Type} (l1 l2 : List α) (hp : l1.Perm l2)
    (pred : α → Bool)
    (huniq : ∀ a b, pred a = true → pred b = true → a = b) :
    l1.find? pred = l2.find? pred := by
  by_cases hex : ∃ a ∈ l1, pred a = true
  · rcases hex with ⟨a, ha, hpa⟩
    rw [find?_eq_some_of_unique l1 pred a ha hpa
      (fun b _ hpb => huniq b a hpb hpa)]
    rw [find?_eq_some_of_unique l2 pred a (hp.mem_iff.mp ha) hpa
      (fun b _ hpb => huniq b a hpb hpa)]
  · push_neg at hex
    rw [List.find?_eq_none.mpr (fun x hx => by simp [hex x hx]),
      List.find?_eq_none.mpr (fun x hx => by simp [hex x (hp.mem_iff.mpr hx)])]

theorem get_stats_eq_applyPasses (sq : ℚ → ℚ) (s : Surface) :
    (get_stats sq s).map (fun r => r.2) = applyPasses sq s stdPasses [] := by
  rcases hi : init_move_stats s [] with _ | r
  · have hL : (get_stats sq s).map (fun r2 => r2.2) = none := by
      unfold get_stats
      rw [hi]
      rfl
    have hR : applyPasses sq s stdPasses [] = none := by
      show ((init_move_stats s []).map (fun r2 => r2.2)).bind _ = none
      rw [hi]
      rfl
    rw [hL, hR]
  · have hr1 : r.1 = s := init_move_stats_fst s [] r hi
    have hL : (get_stats sq s).map (fun r2 => r2.2) =
        some ((get_age_stats sq s ((get_rule_stats s ((get_score_stats sq s ((gene_length_stats sq s ((fraction_def_stats sq s r.2).2)).2)).2)).2)).2) := by
      unfold get_stats
      rw [hi]
      simp only [Option.map_some', fraction_def_stats_fst,
        gene_length_stats_fst, get_score_stats_fst, get_rule_stats_fst]
      rw [hr1]
    have hR : applyPasses sq s stdPasses [] =
        some ((get_age_stats sq s ((get_rule_stats s ((get_score_stats sq s ((gene_length_stats sq s ((fraction_def_stats sq s r.2).2)).2)).2)).2)).2) := by
      show ((init_move_stats s []).map (fun r2 => r2.2)).bind _ = _
      rw [hi]
      rfl
    rw [hL, hR]



/-- Claim C8: the six sub-passes of `get_stats` write pairwise disjoint key
sets, and running them in any order on the same surface produces the same
final record: for every permutation of the pass list, every key looks up
to the same value as in the record `get_stats` builds (and one order
succeeds exactly when the other does). -/
theorem claim_C8_order_independence (sq : ℚ → ℚ) (s : Surface) :
    (∀ p q : PassId, p ≠ q → ∀ k, k ∈ passKeys p → k ∉ passKeys q) ∧
    (∀ l : List PassId, l.Perm stdPasses → ∀ k,
      (applyPasses sq s l []).map (fun d => dlookup d k) =
        (get_stats sq s).map (fun r => dlookup r.2 k)) := by
  refine ⟨passKeys_disjoint, ?_⟩
  intro l hl k
  have hbr : (get_stats sq s).map (fun r => dlookup r.2 k) =
      (applyPasses sq s stdPasses []).map (fun d => dlookup d k) := by
    have h1 := congrArg (Option.map (fun d => dlookup d k))
      (get_stats_eq_applyPasses sq s)
    rw [Option.map_map] at h1
    exact h1
  rw [hbr]
  have hall : l.all (fun p => (runPass sq s p []).isSome) =
      stdPasses.all (fun p => (runPass sq s p []).isSome) := by
    by_cases h : stdPasses.all (fun p => (runPass sq s p []).isSome) = true
    · rw [h, List.all_eq_true]
      rw [List.all_eq_true] at h
      exact fun p hp => h p (hl.mem_iff.mp hp)
    · have h2 : stdPasses.all (fun p => (runPass sq s p []).isSome) = false :=
        Bool.eq_false_iff.mpr h
      rw [h2]
      rw [Bool.eq_false_iff] at h2 ⊢
      intro hcon
      rw [List.all_eq_true] at hcon
      exact h2 (List.all_eq_true.mpr
        (fun p hp => hcon p (hl.mem_iff.mpr hp)))
  have huniq : ∀ p q : PassId, (decide (k ∈ passKeys p)) = true →
      (decide (k ∈ passKeys q)) = true → p = q := by
    intro p q hp hq
    by_contra hne
    exact passKeys_disjoint p q hne k (by simpa using hp) (by simpa using hq)
  rcases hl1 : applyPasses sq s l [] with _ | dl
  · rcases hstd : applyPasses sq s stdPasses [] with _ | ds
    · rfl
    · have hc := applyPasses_isSome sq s l []
      rw [hl1, hall, ← applyPasses_isSome sq s stdPasses [], hstd] at hc
      simp at hc
  · rcases hstd : applyPasses sq s stdPasses [] with _ | ds
    · have hc := applyPasses_isSome sq s l []
      rw [hl1, hall, ← applyPasses_isSome sq s stdPasses [], hstd] at hc
      simp at hc
    · rw [Option.map_some', Option.map_some']
      have e1 := applyPasses_lookup sq s l [] dl hl1 k
      have e2 := applyPasses_lookup sq s stdPasses [] ds hstd k
      rw [e1, e2, find?_perm_of_unique l stdPasses hl
        (fun p => decide (k ∈ passKeys p)) huniq]



section

attribute [local semireducible] Rat.mul Rat.add Rat.sub Rat.inv

/-- Witness for C8: a disjointness instance, and a reversed pass order
giving the same record as `get_stats` on a concrete surface. -/
theorem claim_C8_witness :
    "init_move_frac" ∉ passKeys PassId.fracDef ∧
    (applyPasses id ⟨2, 2, []⟩ [PassId.age, PassId.rule, PassId.score,
        PassId.geneLen, PassId.fracDef, PassId.initMove] []).map
      (fun d => dlookup d "age_mean") =
      (get_stats id ⟨2, 2, []⟩).map (fun r => dlookup r.2 "age_mean") :=
  ⟨(claim_C8_order_independence id ⟨2, 2, []⟩).1 PassId.initMove
      PassId.fracDef (by decide) "init_move_frac" (by decide),
   (claim_C8_order_independence id ⟨2, 2, []⟩).2
     [PassId.age, PassId.rule, PassId.score, PassId.geneLen, PassId.fracDef,
      PassId.initMove] (by decide) "age_mean"⟩

end


end MyStats
